import Mathlib

/-!
Shallow embedding of the RP2xxx-GEEK-80 LCD status-display engine
(src/srcsim/lcd.c and src/lcd/GUI/GUI_DrawChar.c), with theorems about
its panel-selection state machine, refresh-scheduler shutdown handshake,
drive/port activity rendering, register hex rendering and the glyph
blitter.
-/

namespace RPGeek

/-! Color constants.  Modelled from the spec: the numeric RGB values come
from the display driver headers, which are not part of the embedded
sources; only their distinctness matters to the display logic, so they
are given arbitrary distinct values here. -/

def C_BLACK : Nat := 0
def C_RED : Nat := 1
def C_GREEN : Nat := 2
def C_DKBLUE : Nat := 3
def C_YELLOW : Nat := 4
def C_DKYELLOW : Nat := 5
def C_ORANGE : Nat := 6
def C_WHITE : Nat := 7
def C_CYAN : Nat := 8
def C_WHEAT : Nat := 9
def C_DKRED : Nat := 10

/-- Modelled from the spec: LCD_REFRESH, the scheduler's refresh rate in
frames per second, is defined in a header not among the embedded sources;
the frame-counter comment in lcd.c (over 2 years at 60 Hz) fixes it at 60. -/
def LCD_REFRESH : Nat := 60

/-! ## Panel-selection state machine (lcd.c lines 41-49, 189-243)

The five built-in status panels correspond to the draw functions
lcd_draw_cpu_reg, lcd_draw_panel, lcd_draw_drives, lcd_draw_ports and
lcd_draw_memory (SIMPLEPANEL and IOPANEL are both defined in
src/srcsim/sim.h, so all five are compiled in). -/

inductive StatusPanel where
  | cpuReg
  | panel
  | drives
  | ports
  | memory
deriving DecidableEq

/-- A value of the C type lcd_func_t: either one of the built-in status
panel draw functions or a custom full-screen renderer (banner, splash,
wait screens); the NULL shutdown sentinel is modelled by wrapping in
Option at use sites. -/
inductive LcdFunc where
  | statusFn (p : StatusPanel)
  | customFn (c : Nat)
deriving DecidableEq

/-- The core-0-visible control state of lcd.c: the volatile
lcd_draw_func (none models the NULL shutdown sentinel), the remembered
status panel lcd_status_func, and the lcd_shows_status flag. -/
structure LcdState where
  lcd_draw_func : Option LcdFunc
  lcd_status_func : StatusPanel
  lcd_shows_status : Bool
deriving DecidableEq

/-- lcd_custom_disp (lcd.c lines 189-193): install a custom draw
function (or the NULL sentinel) and clear the shows-status flag. -/
def lcd_custom_disp (draw_func : Option LcdFunc) (st : LcdState) : LcdState :=
  { st with lcd_draw_func := draw_func, lcd_shows_status := false }

/-- The selector argument of lcd_status_disp.  Modelled from the spec:
the numeric LCD_STATUS_* constants for the drives and ports panels are
defined in a header revision not among the embedded sources, so the
selector is modelled as an enumeration; `other` covers every integer
that names no panel (the switch's default branch). -/
inductive Selector where
  | current
  | registers
  | panel
  | drives
  | ports
  | memory
  | other (n : Nat)
deriving DecidableEq

/-- lcd_status_disp (lcd.c lines 195-223): update the remembered status
panel according to the selector (LCD_STATUS_CURRENT and unknown values
leave it unchanged), then install it as the active draw function and set
the shows-status flag. -/
def lcd_status_disp (which : Selector) (st : LcdState) : LcdState :=
  let sf : StatusPanel :=
    match which with
    | .registers => .cpuReg
    | .panel => .panel
    | .drives => .drives
    | .ports => .ports
    | .memory => .memory
    | .current => st.lcd_status_func
    | .other _ => st.lcd_status_func
  { st with lcd_status_func := sf,
            lcd_draw_func := some (.statusFn sf),
            lcd_shows_status := true }

/-- lcd_status_next (lcd.c lines 225-243): advance the remembered status
panel one step along the fixed cycle, and install it as the active draw
function only when a status panel is currently shown. -/
def lcd_status_next (st : LcdState) : LcdState :=
  let sf : StatusPanel :=
    match st.lcd_status_func with
    | .cpuReg => .panel
    | .panel => .drives
    | .drives => .ports
    | .ports => .memory
    | .memory => .cpuReg
  { st with lcd_status_func := sf,
            lcd_draw_func :=
              if st.lcd_shows_status then some (.statusFn sf)
              else st.lcd_draw_func }

/-! ## Refresh-scheduler shutdown handshake (lcd.c lines 103-172, 88-99)

lcd_task is modelled as a trace of events over the sequence of values it
observes in the volatile lcd_draw_func, one observation per loop
iteration.  Backlight and rotation handling and the frame-counter
increment are folded into the per-frame render event; they do not
interact with the shutdown handshake.  The trace of an input list that
contains no sentinel ends without devExit/taskDone, modelling a loop
that is still running. -/

inductive LcdEvent where
  | obs (f : Option LcdFunc)
  | render (f : LcdFunc)
  | devExit
  | taskDone
deriving DecidableEq

/-- The event trace of the lcd_task scheduler loop: each iteration first
observes lcd_draw_func; on the NULL sentinel it breaks out of the loop,
performs lcd_dev_exit and only then sets lcd_task_done; otherwise it
renders a frame and continues. -/
def lcd_task_events : List (Option LcdFunc) → List LcdEvent
  | [] => []
  | f :: rest =>
    LcdEvent.obs f ::
      match f with
      | none => [LcdEvent.devExit, LcdEvent.taskDone]
      | some g => LcdEvent.render g :: lcd_task_events rest

/-! ## Drives panel (lcd.c lines 814-940)

Only the dynamic (first = false) branch of lcd_draw_drives is modelled;
the static branch draws the fixed labels, LED brackets and grid lines
that no claim is about.  Grid character draws (draw_grid_char) and LED
draws (draw_led) are recorded as events; the LED's pixel position is a
fixed function of the drive row and is omitted. -/

/-- The per-drive record lcd_drive_t of lcd.c. -/
structure lcd_drive_t where
  track : Nat
  sector : Nat
  addr : Nat
  rdwr : Bool
  active : Bool
  lastacc : Nat
deriving DecidableEq

/-- Unsigned 32-bit subtraction, as performed by the C expression
lcd_frame_cnt - p->lastacc on uint32_t operands. -/
def uint32_sub (a b : Nat) : Nat :=
  (a % 4294967296 + 4294967296 - b % 4294967296) % 4294967296

/-- A drawing event of the Drives panel dynamic branch. -/
inductive DrvEvt where
  | led (color : Nat)
  | gchar (col row ch fg bg : Nat)
deriving DecidableEq

/-- The hex-digit conversion c + (c < 10 ? \x27 0 \x27 : \x27 A \x27 - 10)
shared by the Drives and Registers renderers, on character codes. -/
def hexChar (d : Nat) : Nat := d + (if d < 10 then 48 else 55)

/-- The DMA-address loop of lcd_draw_drives: for j = 0..3 draw the low
nibble of w at grid column 15 - j (blank when clr), then shift w right
by 4. -/
def driveAddrEvents (i : Nat) (clr : Bool) : Nat → Nat → Nat → List DrvEvt
  | 0, _, _ => []
  | n + 1, j, w =>
    DrvEvt.gchar (15 - j) i (if clr then 32 else hexChar (w % 16))
        C_YELLOW C_DKBLUE
      :: driveAddrEvents i clr n (j + 1) (w / 16)

/-- The row drawn for one in-use (or just-cleared) drive: the access LED,
tens and ones of track and sector, and the four hex digits of the DMA
address; every character is blank (code 32) when clr is set. -/
def driveRowEvents (i : Nat) (clr : Bool) (p : lcd_drive_t) : List DrvEvt :=
  DrvEvt.led (if clr then C_DKBLUE else if p.rdwr then C_RED else C_GREEN)
    :: DrvEvt.gchar 4 i (if clr then 32 else 48 + p.track / 10) C_YELLOW C_DKBLUE
    :: DrvEvt.gchar 5 i (if clr then 32 else 48 + p.track % 10) C_YELLOW C_DKBLUE
    :: DrvEvt.gchar 8 i (if clr then 32 else 48 + p.sector / 10) C_YELLOW C_DKBLUE
    :: DrvEvt.gchar 9 i (if clr then 32 else 48 + p.sector % 10) C_YELLOW C_DKBLUE
    :: driveAddrEvents i clr 4 0 p.addr

/-- The dynamic-branch body of lcd_draw_drives for drive i: ten seconds
(10 * LCD_REFRESH frames) after the last access the sector is reset to 0
and clr is raised; a row is drawn when the sector is non-zero or clr is
set, blank under clr and showing track/sector/address/direction LED
otherwise. -/
def lcd_draw_drive_dyn (frame_cnt i : Nat) (p0 : lcd_drive_t) :
    lcd_drive_t × List DrvEvt :=
  let clr : Bool := decide (10 * LCD_REFRESH ≤ uint32_sub frame_cnt p0.lastacc)
  let p := if clr then { p0 with sector := 0 } else p0
  if p.sector ≠ 0 ∨ clr = true then (p, driveRowEvents i clr p)
  else (p, [])

/-! ## Registers panel (lcd.c lines 337-576)

Only the dynamic (first = false) branch of lcd_draw_cpu_reg is
modelled; the static branch draws the grid lines and the labels (the l
member of reg_t), which no claim is about, so the l member is omitted
from the descriptor.  The C descriptors hold pointers into the CPU
register file; they are modelled as tags resolved against a CpuState
record.  draw_grid_char calls are recorded as GridDraw events. -/

/-- The live CPU register file read by the Registers renderer (the
globals A, F, B, C, ... of the z80core collaborator). -/
structure CpuState where
  A : Nat
  F : Nat
  B : Nat
  C : Nat
  D : Nat
  E : Nat
  H : Nat
  L : Nat
  A_ : Nat
  F_ : Nat
  B_ : Nat
  C_ : Nat
  D_ : Nat
  E_ : Nat
  H_ : Nat
  L_ : Nat
  SP : Nat
  PC : Nat
  IX : Nat
  IY : Nat
  I : Nat
  R : Nat
  R_ : Nat
  IFF : Nat
deriving DecidableEq

/-- The render-kind enumeration of reg_t (byte, word, F-integer, flag,
interrupt bit, refresh register). -/
inductive RT where
  | RB
  | RW
  | RJ
  | RF
  | RI
  | RR
deriving DecidableEq

/-- The union member of reg_t: a pointer to a byte register (.b.p), a
word register (.w.p), an int flag register (.i.p), a flag character and
mask (.f.c/.f.m), or NULL (the RR entry). -/
inductive RegPtr where
  | bA
  | bB
  | bC
  | bD
  | bE
  | bH
  | bL
  | bA_
  | bB_
  | bC_
  | bD_
  | bE_
  | bH_
  | bL_
  | bI
  | wSP
  | wPC
  | wIX
  | wIY
  | iF
  | iF_
  | fcm (c m : Nat)
  | pnull
deriving DecidableEq

/-- Dereference a byte-register pointer (a C BYTE, so a value below
256). -/
def reg_b_val (cpu : CpuState) : RegPtr → Nat
  | .bA => cpu.A % 256
  | .bB => cpu.B % 256
  | .bC => cpu.C % 256
  | .bD => cpu.D % 256
  | .bE => cpu.E % 256
  | .bH => cpu.H % 256
  | .bL => cpu.L % 256
  | .bA_ => cpu.A_ % 256
  | .bB_ => cpu.B_ % 256
  | .bC_ => cpu.C_ % 256
  | .bD_ => cpu.D_ % 256
  | .bE_ => cpu.E_ % 256
  | .bH_ => cpu.H_ % 256
  | .bL_ => cpu.L_ % 256
  | .bI => cpu.I % 256
  | _ => 0

/-- Dereference a word-register pointer (a C WORD, so a value below
65536). -/
def reg_w_val (cpu : CpuState) : RegPtr → Nat
  | .wSP => cpu.SP % 65536
  | .wPC => cpu.PC % 65536
  | .wIX => cpu.IX % 65536
  | .wIY => cpu.IY % 65536
  | _ => 0

/-- Dereference an int flag-register pointer, as converted to WORD by
the assignment w = *(rp->i.p). -/
def reg_i_val (cpu : CpuState) : RegPtr → Nat
  | .iF => cpu.F % 65536
  | .iF_ => cpu.F_ % 65536
  | _ => 0

/-- The flag character .f.c of a descriptor. -/
def reg_f_c : RegPtr → Nat
  | .fcm c _ => c
  | _ => 0

/-- The flag mask .f.m of a descriptor. -/
def reg_f_m : RegPtr → Nat
  | .fcm _ m => m
  | _ => 0

/-- One register/flag field descriptor (reg_t of lcd.c); the label
member l, used only by the unmodelled static branch, is omitted. -/
structure reg_t where
  x : Nat
  y : Nat
  type : RT
  src : RegPtr
deriving DecidableEq

/-- One draw_grid_char call: grid column and row, character code,
foreground and background color. -/
structure GridDraw where
  col : Nat
  row : Nat
  ch : Nat
  fg : Nat
  bg : Nat
deriving DecidableEq

/-- The nibble loop of lcd_draw_cpu_reg: draw j hex digits of w
right-to-left starting at grid column x, low nibble first. -/
def hexDraws : Nat → Nat → Nat → Nat → List GridDraw
  | 0, _, _, _ => []
  | j + 1, w, x, y =>
    GridDraw.mk x y (hexChar (w % 16)) C_GREEN C_DKBLUE
      :: hexDraws j (w / 16) (x - 1) y

/-! Modelled from the spec: the Z80 flag-mask constants come from the
z80core headers, which are not among the embedded sources; the standard
Z80 flag bits are used: S = 128, Z = 64, H = 16, P = 4, N = 2, C = 1. -/

/-- The regs_z80 descriptor table (lcd.c lines 386-417); flag
characters are given as their character codes. -/
def regs_z80 : List reg_t :=
  [⟨4, 0, .RB, .bA⟩, ⟨6, 0, .RJ, .iF⟩, ⟨12, 0, .RB, .bB⟩,
   ⟨14, 0, .RB, .bC⟩, ⟨20, 0, .RB, .bD⟩, ⟨22, 0, .RB, .bE⟩,
   ⟨4, 1, .RB, .bH⟩, ⟨6, 1, .RB, .bL⟩, ⟨14, 1, .RW, .wSP⟩,
   ⟨22, 1, .RW, .wPC⟩, ⟨4, 2, .RB, .bA_⟩, ⟨6, 2, .RJ, .iF_⟩,
   ⟨12, 2, .RB, .bB_⟩, ⟨14, 2, .RB, .bC_⟩, ⟨20, 2, .RB, .bD_⟩,
   ⟨22, 2, .RB, .bE_⟩, ⟨4, 3, .RB, .bH_⟩, ⟨6, 3, .RB, .bL_⟩,
   ⟨14, 3, .RW, .wIX⟩, ⟨22, 3, .RW, .wIY⟩, ⟨3, 4, .RF, .fcm 83 128⟩,
   ⟨4, 4, .RF, .fcm 90 64⟩, ⟨5, 4, .RF, .fcm 72 16⟩,
   ⟨6, 4, .RF, .fcm 80 4⟩, ⟨7, 4, .RF, .fcm 78 2⟩,
   ⟨8, 4, .RF, .fcm 67 1⟩, ⟨13, 4, .RI, .fcm 49 1⟩,
   ⟨14, 4, .RI, .fcm 50 2⟩, ⟨20, 4, .RB, .bI⟩, ⟨22, 4, .RR, .pnull⟩]

/-- The regs_8080 descriptor table (lcd.c lines 428-445). -/
def regs_8080 : List reg_t :=
  [⟨4, 0, .RB, .bA⟩, ⟨6, 0, .RJ, .iF⟩, ⟨13, 0, .RB, .bB⟩,
   ⟨15, 0, .RB, .bC⟩, ⟨4, 1, .RB, .bD⟩, ⟨6, 1, .RB, .bE⟩,
   ⟨13, 1, .RB, .bH⟩, ⟨15, 1, .RB, .bL⟩, ⟨6, 2, .RW, .wSP⟩,
   ⟨15, 2, .RW, .wPC⟩, ⟨3, 3, .RF, .fcm 83 128⟩,
   ⟨4, 3, .RF, .fcm 90 64⟩, ⟨5, 3, .RF, .fcm 72 16⟩,
   ⟨6, 3, .RF, .fcm 80 4⟩, ⟨7, 3, .RF, .fcm 67 1⟩,
   ⟨15, 3, .RI, .fcm 49 3⟩]

/-- The dynamic draws of one descriptor (the loop body of the
first = false branch of lcd_draw_cpu_reg). -/
def lcd_draw_reg_dyn (cpu : CpuState) (rp : reg_t) : List GridDraw :=
  match rp.type with
  | .RB => hexDraws 2 (reg_b_val cpu rp.src) rp.x rp.y
  | .RW => hexDraws 4 (reg_w_val cpu rp.src) rp.x rp.y
  | .RJ => hexDraws 2 (reg_i_val cpu rp.src) rp.x rp.y
  | .RF =>
    [⟨rp.x, rp.y, reg_f_c rp.src,
      if cpu.F &&& reg_f_m rp.src ≠ 0 then C_GREEN else C_RED, C_DKBLUE⟩]
  | .RI =>
    [⟨rp.x, rp.y, reg_f_c rp.src,
      if cpu.IFF &&& reg_f_m rp.src = reg_f_m rp.src then C_GREEN
      else C_RED, C_DKBLUE⟩]
  | .RR => hexDraws 2 ((cpu.R_ &&& 128) ||| (cpu.R &&& 127)) rp.x rp.y

/-- The whole dynamic branch: every descriptor of the table in order. -/
def lcd_draw_cpu_reg_dyn (cpu : CpuState) (tbl : List reg_t) :
    List GridDraw :=
  tbl.flatMap (lcd_draw_reg_dyn cpu)

/-- The grid cells assigned to a descriptor (right-to-left from x, one
cell per drawn character). -/
def reg_cells (rp : reg_t) : List (Nat × Nat) :=
  match rp.type with
  | .RW => [(rp.x, rp.y), (rp.x - 1, rp.y), (rp.x - 2, rp.y),
            (rp.x - 3, rp.y)]
  | .RF => [(rp.x, rp.y)]
  | .RI => [(rp.x, rp.y)]
  | _ => [(rp.x, rp.y), (rp.x - 1, rp.y)]

/-! ## Ports panel (lcd.c lines 969-1022)

Only the dynamic branch of lcd_draw_ports is modelled.  Each of the
8 x 32 cells is recorded with its row j, column i and the colors of its
read (top) and write (bottom) indicator bars; the flag pointer p walks
the 256-entry port_flags array in step with the cells.  After drawing,
memset clears all flags. -/

/-- The per-port access-flag record port_flags_t; the C field named
after the reserved word is called inp here. -/
structure port_flags_t where
  inp : Bool
  out : Bool
deriving DecidableEq

/-- One 2-bar indicator cell of the ports panel. -/
structure PortCell where
  j : Nat
  i : Nat
  rd : Nat
  wr : Nat
deriving DecidableEq

/-- The inner column loop of lcd_draw_ports: 32 cells of row j, the flag
pointer advancing with each cell; returns the drawn cells and the final
pointer index. -/
def lcd_draw_ports_row (flags : List port_flags_t) (j : Nat) :
    Nat → Nat → Nat → List PortCell × Nat
  | 0, _, pIdx => ([], pIdx)
  | n + 1, i, pIdx =>
    let p := flags.getD pIdx ⟨false, false⟩
    let cell : PortCell :=
      ⟨j, i, if p.inp then C_GREEN else C_DKBLUE,
             if p.out then C_RED else C_DKBLUE⟩
    let r := lcd_draw_ports_row flags j n (i + 1) (pIdx + 1)
    (cell :: r.1, r.2)

/-- The outer row loop of lcd_draw_ports over the 8 rows. -/
def lcd_draw_ports_rows (flags : List port_flags_t) :
    Nat → Nat → Nat → List PortCell
  | 0, _, _ => []
  | n + 1, j, pIdx =>
    let r := lcd_draw_ports_row flags j 32 0 pIdx
    r.1 ++ lcd_draw_ports_rows flags n (j + 1) r.2

/-- The dynamic branch of lcd_draw_ports: draw all 256 cells, then
clear the whole port_flags array (the memset). -/
def lcd_draw_ports_dyn (flags : List port_flags_t) :
    List PortCell × List port_flags_t :=
  (lcd_draw_ports_rows flags 8 0 0, List.replicate 256 ⟨false, false⟩)

/-! ## Glyph blitter (src/lcd/GUI/GUI_DrawChar.c)

Paint_DrawChar is embedded as a function from its arguments to the list
of Paint_SetPixel calls it makes (each a pixel coordinate with a color)
together with a flag recording whether the out-of-range diagnostic was
emitted.  Paint_SetPixel itself belongs to the display-driver
collaborator and is treated as an abstract pixel-write event.  The
frame dimensions Paint.Width and Paint.Height are passed as
parameters. -/

/-- A bitmap font sFONT: glyph width and height in pixels and the
glyph bitmap table as a flat list of bytes. -/
structure sFONT where
  Width : Nat
  Height : Nat
  table : List Nat
deriving DecidableEq

/-- One Paint_SetPixel call. -/
structure PixelWrite where
  x : Nat
  y : Nat
  color : Nat
deriving DecidableEq

/-- The inner column loop of Paint_DrawChar: for each remaining column,
read the byte at the running pointer, write foreground if the
most-significant-first bit of the column is set and background
otherwise, and advance the pointer after every eighth column.  Returns
the writes and the final pointer. -/
def drawCharCols (tbl : List Nat) (Xpoint Ypoint fg bg page : Nat) :
    Nat → Nat → Nat → List PixelWrite × Nat
  | 0, _, ptr => ([], ptr)
  | n + 1, col, ptr =>
    let w : PixelWrite :=
      ⟨Xpoint + col, Ypoint + page,
       if tbl.getD ptr 0 &&& (128 >>> (col % 8)) ≠ 0 then fg else bg⟩
    let r := drawCharCols tbl Xpoint Ypoint fg bg page n (col + 1)
      (if col % 8 = 7 then ptr + 1 else ptr)
    (w :: r.1, r.2)

/-- The outer page loop of Paint_DrawChar: one row of columns per page,
then skip the row's padding byte when the width is not a multiple of
8. -/
def drawCharPages (fnt : sFONT) (Xpoint Ypoint fg bg : Nat) :
    Nat → Nat → Nat → List PixelWrite
  | 0, _, _ => []
  | n + 1, page, ptr =>
    let r := drawCharCols fnt.table Xpoint Ypoint fg bg page
      fnt.Width 0 ptr
    r.1 ++ drawCharPages fnt Xpoint Ypoint fg bg n (page + 1)
      (if fnt.Width % 8 ≠ 0 then r.2 + 1 else r.2)

/-- The bytes occupied by one bitmap row:
Font->Width / 8 + (Font->Width % 8 ? 1 : 0). -/
def bytesPerRow (fnt : sFONT) : Nat :=
  fnt.Width / 8 + (if fnt.Width % 8 ≠ 0 then 1 else 0)

/-- Paint_DrawChar: reject an out-of-range top-left coordinate with a
diagnostic (the Bool) and no writes; otherwise blit the glyph of
character code ch starting at table offset
(ch - 32) * Height * bytesPerRow. -/
def Paint_DrawChar (W H Xpoint Ypoint ch : Nat) (fnt : sFONT)
    (fg bg : Nat) : List PixelWrite × Bool :=
  if W ≤ Xpoint ∨ H ≤ Ypoint then ([], true)
  else
    (drawCharPages fnt Xpoint Ypoint fg bg fnt.Height 0
      ((ch - 32) * fnt.Height * bytesPerRow fnt), false)

/-- Byte index of column c in row page of the glyph of ch, padding
bytes included. -/
def glyphByteIndex (fnt : sFONT) (ch page c : Nat) : Nat :=
  (ch - 32) * fnt.Height * bytesPerRow fnt + page * bytesPerRow fnt + c / 8

/-- The specification form of the blit: row-major, one write per
(page, column) pair, foreground exactly where the
most-significant-bit-first glyph bit of the column is set, the row's
padding byte skipped by the byte indexing. -/
def drawCharSpec (Xpoint Ypoint ch : Nat) (fnt : sFONT) (fg bg : Nat) :
    List PixelWrite :=
  (List.range fnt.Height).flatMap fun page =>
    (List.range fnt.Width).map fun c =>
      ⟨Xpoint + c, Ypoint + page,
       if fnt.table.getD (glyphByteIndex fnt ch page c) 0
           &&& (128 >>> (c % 8)) ≠ 0
       then fg else bg⟩

end RPGeek

namespace RPGeek

/-- Closed form of the glyph blitter's column loop. -/
theorem drawCharCols_eq (tbl : List Nat) (Xpoint Ypoint fg bg page
    rowStart : Nat) :
    ∀ n col, drawCharCols tbl Xpoint Ypoint fg bg page n col
        (rowStart + col / 8)
      = ((List.range' col n).map fun c =>
          (⟨Xpoint + c, Ypoint + page,
            if tbl.getD (rowStart + c / 8) 0 &&& (128 >>> (c % 8)) ≠ 0
            then fg else bg⟩ : PixelWrite),
         rowStart + (col + n) / 8) := by
  intro n
  induction n with
  | zero => intro col; simp [drawCharCols]
  | succ n ih =>
    intro col
    have hptr : (if col % 8 = 7 then rowStart + col / 8 + 1
        else rowStart + col / 8) = rowStart + (col + 1) / 8 := by
      by_cases h : col % 8 = 7 <;> simp [h] <;> omega
    rw [drawCharCols, hptr, ih (col + 1),
      show List.range' col (n + 1) = col :: List.range' (col + 1) n from
        List.range'_succ col n 1]
    simp only [List.map_cons, Prod.mk.injEq, List.cons_eq_cons]
    refine ⟨?_, by omega⟩
    trivial

/-- Closed form of the glyph blitter's page loop. -/
theorem drawCharPages_eq (fnt : sFONT) (Xpoint Ypoint fg bg off : Nat) :
    ∀ n page, drawCharPages fnt Xpoint Ypoint fg bg n page
        (off + page * bytesPerRow fnt)
      = (List.range' page n).flatMap fun pg =>
          (List.range' 0 fnt.Width).map fun c =>
            (⟨Xpoint + c, Ypoint + pg,
              if fnt.table.getD (off + pg * bytesPerRow fnt + c / 8) 0
                  &&& (128 >>> (c % 8)) ≠ 0
              then fg else bg⟩ : PixelWrite) := by
  intro n
  induction n with
  | zero => intro page; simp [drawCharPages]
  | succ n ih =>
    intro page
    have hrow := drawCharCols_eq fnt.table Xpoint Ypoint fg bg page
      (off + page * bytesPerRow fnt) fnt.Width 0
    rw [Nat.zero_div, Nat.add_zero, Nat.zero_add] at hrow
    have hnext : (if fnt.Width % 8 ≠ 0
        then off + page * bytesPerRow fnt + fnt.Width / 8 + 1
        else off + page * bytesPerRow fnt + fnt.Width / 8)
        = off + (page + 1) * bytesPerRow fnt := by
      by_cases h : fnt.Width % 8 = 0 <;>
        simp [h, bytesPerRow] <;> ring
    rw [drawCharPages, hrow,
      show List.range' page (n + 1) = page :: List.range' (page + 1) n from
        List.range'_succ page n 1]
    simp only [List.flatMap_cons]
    congr 1
    rw [← ih (page + 1), ← hnext]

end RPGeek

namespace RPGeek

/-- Closed form of the ports inner loop. -/
theorem lcd_draw_ports_row_eq (flags : List port_flags_t) (j : Nat) :
    ∀ n i pIdx, lcd_draw_ports_row flags j n i pIdx
      = ((List.range n).map (fun t =>
          let p := flags.getD (pIdx + t) ⟨false, false⟩
          (⟨j, i + t, if p.inp then C_GREEN else C_DKBLUE,
                      if p.out then C_RED else C_DKBLUE⟩ : PortCell)),
         pIdx + n) := by
  intro n
  induction n with
  | zero => intro i pIdx; simp [lcd_draw_ports_row]
  | succ n ih =>
    intro i pIdx
    rw [lcd_draw_ports_row, ih (i + 1) (pIdx + 1),
      show List.range (n + 1) = 0 :: List.map Nat.succ (List.range n) from
        List.range_succ_eq_map n]
    simp only [List.map_cons, List.map_map, Prod.mk.injEq, List.cons_eq_cons]
    refine ⟨⟨by simp, ?_⟩, by omega⟩
    apply List.map_congr_left
    intro t _
    simp only [Function.comp_apply, Nat.succ_eq_add_one]
    have h1 : i + 1 + t = i + (t + 1) := by omega
    have h2 : pIdx + 1 + t = pIdx + (t + 1) := by omega
    rw [h1, h2]

/-- Closed form of the ports outer loop. -/
theorem lcd_draw_ports_rows_eq (flags : List port_flags_t) :
    ∀ n j pIdx, lcd_draw_ports_rows flags n j pIdx
      = (List.range n).flatMap (fun s =>
          (List.range 32).map (fun t =>
            let p := flags.getD (pIdx + 32 * s + t) ⟨false, false⟩
            (⟨j + s, t, if p.inp then C_GREEN else C_DKBLUE,
                        if p.out then C_RED else C_DKBLUE⟩ : PortCell))) := by
  intro n
  induction n with
  | zero => intro j pIdx; simp [lcd_draw_ports_rows]
  | succ n ih =>
    intro j pIdx
    rw [lcd_draw_ports_rows, lcd_draw_ports_row_eq flags j 32 0 pIdx,
      ih (j + 1) (pIdx + 32),
      show List.range (n + 1) = 0 :: List.map Nat.succ (List.range n) from
        List.range_succ_eq_map n]
    simp only [List.flatMap_cons, List.flatMap_map]
    have hh : List.map (fun t =>
        let p := flags.getD (pIdx + t) ⟨false, false⟩
        (⟨j, 0 + t, if p.inp then C_GREEN else C_DKBLUE,
                    if p.out then C_RED else C_DKBLUE⟩ : PortCell))
          (List.range 32)
      = List.map (fun t =>
          let p := flags.getD (pIdx + 32 * 0 + t) ⟨false, false⟩
          (⟨j + 0, t, if p.inp then C_GREEN else C_DKBLUE,
                      if p.out then C_RED else C_DKBLUE⟩ : PortCell))
          (List.range 32) := by
      apply List.map_congr_left
      intro t _
      simp
    have ht : ((List.range n).flatMap fun s =>
        List.map (fun t =>
          let p := flags.getD (pIdx + 32 + 32 * s + t) ⟨false, false⟩
          (⟨j + 1 + s, t, if p.inp then C_GREEN else C_DKBLUE,
                          if p.out then C_RED else C_DKBLUE⟩ : PortCell))
          (List.range 32))
      = (List.range n).flatMap fun s =>
          List.map (fun t =>
            let p := flags.getD (pIdx + 32 * Nat.succ s + t) ⟨false, false⟩
            (⟨j + Nat.succ s, t, if p.inp then C_GREEN else C_DKBLUE,
                                 if p.out then C_RED else C_DKBLUE⟩ : PortCell))
            (List.range 32) := by
      apply List.flatMap_congr
      intro s _
      apply List.map_congr_left
      intro t _
      have h1 : j + 1 + s = j + Nat.succ s := by omega
      have h2 : pIdx + 32 + 32 * s + t = pIdx + 32 * Nat.succ s + t := by
        omega
      rw [h1, h2]
    rw [hh, ht]

/-- Helper: getD on a replicate of the default value is the default. -/
theorem getD_replicate_self {α : Type} (a : α) :
    ∀ n k, (List.replicate n a).getD k a = a := by
  intro n
  induction n with
  | zero => intro k; simp [List.getD]
  | succ n ih =>
    intro k
    cases k with
    | zero => simp [List.replicate]
    | succ k => simp [List.replicate]

/-- Helper: without 32-bit wraparound, the C frame-count difference is
the plain difference. -/
theorem uint32_sub_eq (a b : Nat) (h1 : b ≤ a) (h2 : a - b < 4294967296) :
    uint32_sub a b = a - b := by
  unfold uint32_sub
  omega

/-- The blank drive row drawn on the idle-clear path. -/
def driveBlankRow (i : Nat) : List DrvEvt :=
  DrvEvt.led C_DKBLUE
    :: DrvEvt.gchar 4 i 32 C_YELLOW C_DKBLUE
    :: DrvEvt.gchar 5 i 32 C_YELLOW C_DKBLUE
    :: DrvEvt.gchar 8 i 32 C_YELLOW C_DKBLUE
    :: DrvEvt.gchar 9 i 32 C_YELLOW C_DKBLUE
    :: DrvEvt.gchar 15 i 32 C_YELLOW C_DKBLUE
    :: DrvEvt.gchar 14 i 32 C_YELLOW C_DKBLUE
    :: DrvEvt.gchar 13 i 32 C_YELLOW C_DKBLUE
    :: [DrvEvt.gchar 12 i 32 C_YELLOW C_DKBLUE]

/-- Helper: the clear path of the drives renderer draws the blank row. -/
theorem driveRowEvents_clr (i : Nat) (p : lcd_drive_t) :
    driveRowEvents i true p = driveBlankRow i := by
  simp [driveRowEvents, driveAddrEvents, driveBlankRow]

/-- Helper: distinct descriptors of the Z80 table own disjoint grid
cells. -/
theorem regs_z80_cells_disjoint :
    ∀ p ∈ regs_z80, ∀ q ∈ regs_z80, p ≠ q →
      ∀ c ∈ reg_cells p, c ∉ reg_cells q := by
  decide

end RPGeek

namespace RPGeek

/-- C6: Panel cycling: the five built-in status panels form one fixed
cycle under lcd_status_next (Registers, FrontPanel, Drives, Ports,
Memory, back to Registers); starting with the remembered status panel
equal to Registers, five applications of lcd_status_next return the
remembered status panel to Registers. -/
theorem lcd_status_next_cycle (st : LcdState)
    (h : st.lcd_status_func = StatusPanel.cpuReg) :
    (lcd_status_next (lcd_status_next (lcd_status_next (lcd_status_next
      (lcd_status_next st))))).lcd_status_func = StatusPanel.cpuReg := by
  simp [lcd_status_next, h]

theorem lcd_status_next_cycle_witness :
    (lcd_status_next (lcd_status_next (lcd_status_next (lcd_status_next
      (lcd_status_next ⟨some (.statusFn .cpuReg), .cpuReg, true⟩))))).lcd_status_func
      = StatusPanel.cpuReg :=
  lcd_status_next_cycle ⟨some (.statusFn .cpuReg), .cpuReg, true⟩ rfl

/-- C7: Selecting a custom renderer changes the active draw function and
clears the shows-status flag but leaves the remembered status panel
unchanged, so a later status selection (LCD_STATUS_CURRENT) resumes from
the remembered panel; and while the custom renderer is shown,
lcd_status_next advances the remembered panel without changing the
active draw function. -/
theorem lcd_custom_disp_preserves_status (st : LcdState) (c : Nat) :
    (lcd_custom_disp (some (.customFn c)) st).lcd_draw_func
        = some (.customFn c)
    ∧ (lcd_custom_disp (some (.customFn c)) st).lcd_shows_status = false
    ∧ (lcd_custom_disp (some (.customFn c)) st).lcd_status_func
        = st.lcd_status_func
    ∧ (lcd_status_disp .current
        (lcd_custom_disp (some (.customFn c)) st)).lcd_draw_func
        = some (.statusFn st.lcd_status_func)
    ∧ (lcd_status_next
        (lcd_custom_disp (some (.customFn c)) st)).lcd_draw_func
        = some (.customFn c)
    ∧ (lcd_status_next (lcd_custom_disp (some (.customFn c)) st)).lcd_status_func
        = (lcd_status_next st).lcd_status_func := by
  refine ⟨rfl, rfl, rfl, rfl, ?_, ?_⟩ <;>
    simp [lcd_custom_disp, lcd_status_next]

/-- C10: Calling lcd_status_disp with LCD_STATUS_CURRENT, or with any
selector value that names no panel (the switch's default branch), leaves
the remembered status panel unchanged but still installs it as the
active draw function and sets the shows-status flag, restoring the
previously selected status panel. -/
theorem lcd_status_disp_current_restores (st : LcdState) (n : Nat) :
    lcd_status_disp .current st
        = { st with lcd_draw_func := some (.statusFn st.lcd_status_func),
                    lcd_shows_status := true }
    ∧ lcd_status_disp (.other n) st
        = { st with lcd_draw_func := some (.statusFn st.lcd_status_func),
                    lcd_shows_status := true } :=
  ⟨rfl, rfl⟩

/-- C1: Shutdown handshake: the scheduler loop exits exactly when it
observes the NULL sentinel in lcd_draw_func (so lcd_task_done is set,
and lcd_exit's poll of that flag terminates, if and only if a sentinel
observation occurs); and whenever it exits, the trace ends with the
sentinel observation, then lcd_dev_exit, then the lcd_task_done flag,
with no earlier taskDone, devExit or sentinel observation, so the flag
never becomes true before the scheduler has observed the sentinel and
torn down the device. -/
theorem lcd_task_shutdown_handshake (inputs : List (Option LcdFunc)) :
    (LcdEvent.taskDone ∈ lcd_task_events inputs ↔ none ∈ inputs)
    ∧ (none ∈ inputs →
        ∃ pre, lcd_task_events inputs
            = pre ++ [LcdEvent.obs none, LcdEvent.devExit, LcdEvent.taskDone]
          ∧ ∀ e ∈ pre, e ≠ LcdEvent.taskDone ∧ e ≠ LcdEvent.devExit
              ∧ e ≠ LcdEvent.obs none) := by
  induction inputs with
  | nil => simp [lcd_task_events]
  | cons f rest ih =>
    cases f with
    | none =>
      constructor
      · simp [lcd_task_events]
      · intro _
        exact ⟨[], rfl, by simp⟩
    | some g =>
      constructor
      · simp [lcd_task_events, ih.1]
      · intro hmem
        have hrest : none ∈ rest := by simpa [lcd_task_events] using hmem
        obtain ⟨pre, hpre, hall⟩ := ih.2 hrest
        refine ⟨LcdEvent.obs (some g) :: LcdEvent.render g :: pre, ?_, ?_⟩
        · simp [lcd_task_events, hpre]
        · intro e he
          simp only [List.mem_cons] at he
          rcases he with he | he | he
          · simp [he]
          · simp [he]
          · exact hall e he

theorem lcd_task_shutdown_handshake_witness :
    LcdEvent.taskDone ∈ lcd_task_events [some (.statusFn .cpuReg), none] :=
  (lcd_task_shutdown_handshake [some (.statusFn .cpuReg), none]).1.mpr
    (by decide)

/-- C4: Drive idle decay: with lastAccessFrame = f0 and no new access
(and no 32-bit frame-counter wraparound), a dynamic frame of the Drives
renderer at frame f renders the drive idle (sector reset to 0, blank
row) whenever f - f0 is at least 10 * LCD_REFRESH, and renders it
active (direction LED, track, sector and DMA address shown) at any
frame before that threshold while the sector is non-zero. -/
theorem lcd_draw_drives_idle_decay (f f0 i : Nat) (d : lcd_drive_t)
    (hacc : d.lastacc = f0) (hle : f0 ≤ f) (hnw : f - f0 < 4294967296) :
    (10 * LCD_REFRESH ≤ f - f0 →
      lcd_draw_drive_dyn f i d = ({ d with sector := 0 }, driveBlankRow i))
    ∧ (f - f0 < 10 * LCD_REFRESH → d.sector ≠ 0 →
      lcd_draw_drive_dyn f i d =
        (d, DrvEvt.led (if d.rdwr then C_RED else C_GREEN)
          :: DrvEvt.gchar 4 i (48 + d.track / 10) C_YELLOW C_DKBLUE
          :: DrvEvt.gchar 5 i (48 + d.track % 10) C_YELLOW C_DKBLUE
          :: DrvEvt.gchar 8 i (48 + d.sector / 10) C_YELLOW C_DKBLUE
          :: DrvEvt.gchar 9 i (48 + d.sector % 10) C_YELLOW C_DKBLUE
          :: DrvEvt.gchar 15 i (hexChar (d.addr % 16)) C_YELLOW C_DKBLUE
          :: DrvEvt.gchar 14 i (hexChar (d.addr / 16 % 16)) C_YELLOW C_DKBLUE
          :: DrvEvt.gchar 13 i (hexChar (d.addr / 16 / 16 % 16))
               C_YELLOW C_DKBLUE
          :: [DrvEvt.gchar 12 i (hexChar (d.addr / 16 / 16 / 16 % 16))
               C_YELLOW C_DKBLUE])) := by
  have hsub : uint32_sub f d.lastacc = f - f0 := by
    rw [hacc]
    exact uint32_sub_eq f f0 hle hnw
  constructor
  · intro hto
    have hc : decide (10 * LCD_REFRESH ≤ uint32_sub f d.lastacc) = true := by
      rw [hsub]
      exact decide_eq_true hto
    simp [lcd_draw_drive_dyn, hc, driveRowEvents_clr]
  · intro hlt hsec
    have hc : decide (10 * LCD_REFRESH ≤ uint32_sub f d.lastacc) = false := by
      rw [hsub]
      exact decide_eq_false (by omega)
    simp [lcd_draw_drive_dyn, hc, hsec, driveRowEvents, driveAddrEvents]

theorem lcd_draw_drives_idle_decay_witness :
    lcd_draw_drive_dyn 600 0 ⟨1, 5, 0, false, true, 0⟩
      = ({ track := 1, sector := 0, addr := 0, rdwr := false,
           active := true, lastacc := 0 }, driveBlankRow 0) :=
  (lcd_draw_drives_idle_decay 600 0 0 ⟨1, 5, 0, false, true, 0⟩
    rfl (by decide) (by decide)).1 (by decide)

/-- C9 counterexample: with a drive whose sector has already been
cleared by the idle timeout (sector 0, last access at frame 0), the
Drives renderer redraws the blank row not only on the clear frame (600)
and one extra frame (601) but again on the second later dynamic frame
(602), where the claim says the row is no longer redrawn. -/
theorem lcd_draw_drives_one_extra_cex :
    (lcd_draw_drive_dyn 600 0 ⟨1, 5, 0, false, true, 0⟩).1.sector = 0
    ∧ (lcd_draw_drive_dyn 601 0
        (lcd_draw_drive_dyn 600 0 ⟨1, 5, 0, false, true, 0⟩).1).2 ≠ []
    ∧ (lcd_draw_drive_dyn 602 0
        (lcd_draw_drive_dyn 601 0
          (lcd_draw_drive_dyn 600 0 ⟨1, 5, 0, false, true, 0⟩).1).1).2
        ≠ [] := by
  decide

/-- C9 amended: after the idle timeout first clears a drive's sector to
0, the clear path (clr true) redraws that drive's row as blanks on every
later dynamic frame with still no new access (the timeout condition
stays true because lastacc never changes), not for just one extra
frame. -/
theorem lcd_draw_drives_idle_redraw_every_frame (f i : Nat)
    (d : lcd_drive_t) (_hsec : d.sector = 0) (hle : d.lastacc ≤ f)
    (hnw : f - d.lastacc < 4294967296)
    (hto : 10 * LCD_REFRESH ≤ f - d.lastacc) :
    lcd_draw_drive_dyn f i d = ({ d with sector := 0 }, driveBlankRow i) :=
  (lcd_draw_drives_idle_decay f d.lastacc i d rfl hle hnw).1 hto

theorem lcd_draw_drives_idle_redraw_every_frame_witness :
    lcd_draw_drive_dyn 1302 0 ⟨1, 0, 0, false, true, 0⟩
      = ({ track := 1, sector := 0, addr := 0, rdwr := false,
           active := true, lastacc := 0 }, driveBlankRow 0) :=
  lcd_draw_drives_idle_redraw_every_frame 1302 0 ⟨1, 0, 0, false, true, 0⟩
    rfl (by decide) (by decide) (by decide)

/-- C5: Port activity pulse: on a dynamic frame of the Ports renderer,
the cell of port k (row k / 32, column k % 32) is drawn with a green
read bar when the port's read flag is set (idle color otherwise) and a
red write bar when the write flag is set; immediately after drawing all
256 ports' flags are cleared (the memset), so a second dynamic frame
with no new access draws every cell idle. -/
theorem lcd_draw_ports_activity_pulse (flags : List port_flags_t)
    (k : Nat) (hk : k < 256) :
    (PortCell.mk (k / 32) (k % 32)
        (if (flags.getD k ⟨false, false⟩).inp then C_GREEN else C_DKBLUE)
        (if (flags.getD k ⟨false, false⟩).out then C_RED else C_DKBLUE)
      ∈ (lcd_draw_ports_dyn flags).1)
    ∧ (lcd_draw_ports_dyn flags).2 = List.replicate 256 ⟨false, false⟩
    ∧ ∀ c ∈ (lcd_draw_ports_dyn (lcd_draw_ports_dyn flags).2).1,
        c.rd = C_DKBLUE ∧ c.wr = C_DKBLUE := by
  refine ⟨?_, rfl, ?_⟩
  · show _ ∈ lcd_draw_ports_rows flags 8 0 0
    rw [lcd_draw_ports_rows_eq flags 8 0 0]
    apply List.mem_flatMap.mpr
    refine ⟨k / 32, by simp [List.mem_range]; omega, ?_⟩
    apply List.mem_map.mpr
    refine ⟨k % 32, by simp [List.mem_range]; omega, ?_⟩
    have h1 : 0 + 32 * (k / 32) + k % 32 = k := by omega
    have h2 : (0 : Nat) + k / 32 = k / 32 := by omega
    simp only [h1, h2]
  · intro c hc
    have hc2 : c ∈ lcd_draw_ports_rows (List.replicate 256 ⟨false, false⟩)
        8 0 0 := hc
    rw [lcd_draw_ports_rows_eq] at hc2
    obtain ⟨s, _, hc3⟩ := List.mem_flatMap.mp hc2
    obtain ⟨t, _, hc4⟩ := List.mem_map.mp hc3
    rw [getD_replicate_self] at hc4
    rw [← hc4]
    simp

theorem lcd_draw_ports_activity_pulse_witness :
    (PortCell.mk (5 / 32) (5 % 32)
        (if (((List.replicate 256 (⟨false, false⟩ : port_flags_t)).set 5
            ⟨true, false⟩).getD 5 ⟨false, false⟩).inp then C_GREEN
         else C_DKBLUE)
        (if (((List.replicate 256 (⟨false, false⟩ : port_flags_t)).set 5
            ⟨true, false⟩).getD 5 ⟨false, false⟩).out then C_RED
         else C_DKBLUE)
      ∈ (lcd_draw_ports_dyn ((List.replicate 256
          (⟨false, false⟩ : port_flags_t)).set 5 ⟨true, false⟩)).1)
    ∧ (lcd_draw_ports_dyn ((List.replicate 256
        (⟨false, false⟩ : port_flags_t)).set 5 ⟨true, false⟩)).2
        = List.replicate 256 ⟨false, false⟩
    ∧ ∀ c ∈ (lcd_draw_ports_dyn (lcd_draw_ports_dyn
        ((List.replicate 256 (⟨false, false⟩ : port_flags_t)).set 5
          ⟨true, false⟩)).2).1,
        c.rd = C_DKBLUE ∧ c.wr = C_DKBLUE :=
  lcd_draw_ports_activity_pulse
    ((List.replicate 256 (⟨false, false⟩ : port_flags_t)).set 5
      ⟨true, false⟩) 5 (by decide)

/-- C8: Register hex rendering: on a dynamic frame of the Registers
renderer, a byte-valued (RB) field of the Z80 table whose register holds
0x3F is drawn as exactly the two characters F (code 70) and 3 (code 51)
in the two grid cells assigned to the field, right-to-left nibble by
nibble in green on the panel background; every draw of this field stays
inside its own cells, and no grid cell assigned to any other field of
the table is touched. -/
theorem lcd_draw_cpu_reg_hex_byte (cpu : CpuState) (rp : reg_t)
    (hmem : rp ∈ regs_z80) (htype : rp.type = RT.RB)
    (hval : reg_b_val cpu rp.src = 63) :
    lcd_draw_reg_dyn cpu rp =
      [⟨rp.x, rp.y, 70, C_GREEN, C_DKBLUE⟩,
       ⟨rp.x - 1, rp.y, 51, C_GREEN, C_DKBLUE⟩]
    ∧ (∀ d ∈ lcd_draw_reg_dyn cpu rp, (d.col, d.row) ∈ reg_cells rp)
    ∧ ∀ rq ∈ regs_z80, rq ≠ rp → ∀ d ∈ lcd_draw_reg_dyn cpu rp,
        (d.col, d.row) ∉ reg_cells rq := by
  have heq : lcd_draw_reg_dyn cpu rp =
      [⟨rp.x, rp.y, 70, C_GREEN, C_DKBLUE⟩,
       ⟨rp.x - 1, rp.y, 51, C_GREEN, C_DKBLUE⟩] := by
    simp [lcd_draw_reg_dyn, htype, hval, hexDraws, hexChar]
  have hcells : ∀ d ∈ lcd_draw_reg_dyn cpu rp,
      (d.col, d.row) ∈ reg_cells rp := by
    intro d hd
    rw [heq] at hd
    simp only [List.mem_cons, List.not_mem_nil, or_false] at hd
    rcases hd with hd | hd <;> rw [hd] <;> simp [reg_cells, htype]
  refine ⟨heq, hcells, ?_⟩
  intro rq hq hne d hd
  exact regs_z80_cells_disjoint rp hmem rq hq (Ne.symm hne)
    (d.col, d.row) (hcells d hd)

theorem flatMap_length_const {α β : Type} (l : List α) (f : α → List β)
    (k : Nat) (h : ∀ a ∈ l, (f a).length = k) :
    (l.flatMap f).length = l.length * k := by
  induction l with
  | nil => simp
  | cons a l ih =>
    rw [List.flatMap_cons, List.length_append, h a (List.mem_cons_self a l),
      ih (fun b hb => h b (List.mem_cons_of_mem a hb)), List.length_cons]
    ring

/-- C2: Glyph blitter full opaque rectangle: for every in-bounds
top-left coordinate, character, font and color pair, Paint_DrawChar
emits no diagnostic and produces exactly the writes of drawCharSpec:
one write per (column, row) of the font box (so font.Width *
font.Height writes in all), foreground where the
most-significant-bit-first bit of the glyph bitmap row is set and
background otherwise, with each bitmap row occupying bytesPerRow bytes
so the padding byte of a width not divisible by 8 is skipped. -/
theorem Paint_DrawChar_inbounds (W H Xpoint Ypoint ch : Nat)
    (fnt : sFONT) (fg bg : Nat) (hx : Xpoint < W) (hy : Ypoint < H) :
    (Paint_DrawChar W H Xpoint Ypoint ch fnt fg bg).1
        = drawCharSpec Xpoint Ypoint ch fnt fg bg
    ∧ (Paint_DrawChar W H Xpoint Ypoint ch fnt fg bg).1.length
        = fnt.Width * fnt.Height
    ∧ (Paint_DrawChar W H Xpoint Ypoint ch fnt fg bg).2 = false := by
  have hguard : ¬ (W ≤ Xpoint ∨ H ≤ Ypoint) := by omega
  have h0 := drawCharPages_eq fnt Xpoint Ypoint fg bg
    ((ch - 32) * fnt.Height * bytesPerRow fnt) fnt.Height 0
  rw [Nat.zero_mul, Nat.add_zero] at h0
  have h1 : (Paint_DrawChar W H Xpoint Ypoint ch fnt fg bg).1
      = drawCharSpec Xpoint Ypoint ch fnt fg bg := by
    unfold Paint_DrawChar
    rw [if_neg hguard]
    show drawCharPages fnt Xpoint Ypoint fg bg fnt.Height 0
        ((ch - 32) * fnt.Height * bytesPerRow fnt)
      = drawCharSpec Xpoint Ypoint ch fnt fg bg
    rw [h0]
    unfold drawCharSpec glyphByteIndex
    rw [List.range_eq_range' fnt.Height, List.range_eq_range' fnt.Width]
  refine ⟨h1, ?_, ?_⟩
  · rw [h1]
    unfold drawCharSpec
    rw [flatMap_length_const _ _ fnt.Width
      (fun a _ => by rw [List.length_map, List.length_range]),
      List.length_range]
    ring
  · unfold Paint_DrawChar
    rw [if_neg hguard]

theorem Paint_DrawChar_inbounds_witness :
    (Paint_DrawChar 2 2 1 1 32 ⟨1, 1, [128]⟩ C_WHITE C_DKBLUE).1
        = drawCharSpec 1 1 32 ⟨1, 1, [128]⟩ C_WHITE C_DKBLUE
    ∧ (Paint_DrawChar 2 2 1 1 32 ⟨1, 1, [128]⟩ C_WHITE C_DKBLUE).1.length
        = 1 * 1
    ∧ (Paint_DrawChar 2 2 1 1 32 ⟨1, 1, [128]⟩ C_WHITE C_DKBLUE).2
        = false :=
  Paint_DrawChar_inbounds 2 2 1 1 32 ⟨1, 1, [128]⟩ C_WHITE C_DKBLUE
    (by decide) (by decide)

/-- C3: Glyph blitter out-of-bounds rejection: a call with top-left x
at or beyond the frame width, or y at or beyond the frame height,
emits the diagnostic (the true flag), writes no pixels, and returns
normally. -/
theorem Paint_DrawChar_out_of_bounds (W H Xpoint Ypoint ch : Nat)
    (fnt : sFONT) (fg bg : Nat) (h : W ≤ Xpoint ∨ H ≤ Ypoint) :
    Paint_DrawChar W H Xpoint Ypoint ch fnt fg bg = ([], true) := by
  unfold Paint_DrawChar
  rw [if_pos h]

theorem Paint_DrawChar_out_of_bounds_witness :
    Paint_DrawChar 240 135 240 0 65 ⟨1, 1, [128]⟩ C_WHITE C_DKBLUE
      = ([], true) :=
  Paint_DrawChar_out_of_bounds 240 135 240 0 65 ⟨1, 1, [128]⟩
    C_WHITE C_DKBLUE (by decide)

theorem lcd_draw_cpu_reg_hex_byte_witness :
    lcd_draw_reg_dyn
        ⟨63, 0, 0, 0, 0, 0, 0, 0, 0, 0, 0, 0, 0, 0, 0, 0,
         0, 0, 0, 0, 0, 0, 0, 0⟩ ⟨4, 0, .RB, .bA⟩ =
      [⟨4, 0, 70, C_GREEN, C_DKBLUE⟩, ⟨4 - 1, 0, 51, C_GREEN, C_DKBLUE⟩] :=
  (lcd_draw_cpu_reg_hex_byte
    ⟨63, 0, 0, 0, 0, 0, 0, 0, 0, 0, 0, 0, 0, 0, 0, 0,
     0, 0, 0, 0, 0, 0, 0, 0⟩ ⟨4, 0, .RB, .bA⟩
    (by decide) rfl (by decide)).1

end RPGeek
